import Mathlib

/-!
Verification development for the COVID-19 Global Data Tracker pipeline
(`main.py`).  The script is a single linear pandas pipeline; we embed it
shallowly: a data frame is a `List Row`, a missing float cell (NaN) is
`none`, finite numeric values are rationals, and a non-finite result of an
arithmetic operation (NaN or an infinity produced by division) is likewise
modelled as `none`.  Dates are modelled post-parse as `Option Int`
(day ordinals; `none` models NaT, i.e. a date missing in the source).
File input and the rendering back ends are modelled by pure output
structures holding the numeric content handed to them.
-/

/-- A numeric table cell: `none` is a missing value (NaN). -/
abbrev Cell := Option ℚ

/-- Fallback on options: keep the first value when present.  This is the
semantics of pandas forward-fill at a single cell. -/
def orD {α : Type} : Option α → Option α → Option α
  | some v, _ => some v
  | none, y => y

@[simp] theorem orD_some {α : Type} (v : α) (y : Option α) : orD (some v) y = some v := rfl

@[simp] theorem orD_none {α : Type} (y : Option α) : orD none y = y := rfl

/-- Positional lookup in a list (`none` when out of range). -/
def nth {α : Type} : List α → Nat → Option α
  | [], _ => none
  | x :: _, 0 => some x
  | _ :: xs, n + 1 => nth xs n

/-- The value carried by a forward-fill scan after reading `l`, starting
from a previously carried value `a`: the last `some` of `l`, else `a`. -/
def carried {α : Type} (a : Option α) (l : List (Option α)) : Option α :=
  l.foldl (fun acc x => orD x acc) a

/-- Forward-fill of one series: each cell is replaced by the most recent
non-missing value at or before it; `last` is the value carried in from
before the series (always `none` at the start of a pandas group). -/
def ffill (last : Cell) : List Cell → List Cell
  | [] => []
  | x :: xs => orD x last :: ffill (orD x last) xs

/-- One row of the OWID table, named after the CSV columns used by the
script.  `date` holds the `pd.to_datetime`-parsed value.  The three
derived columns added by the cleaning stage default to `none` (absent)
in raw rows. -/
structure Row where
  location : Option String := none
  iso_code : Option String := none
  date : Option Int := none
  population : Cell := none
  total_cases : Cell := none
  new_cases : Cell := none
  total_deaths : Cell := none
  new_deaths : Cell := none
  total_vaccinations : Cell := none
  people_vaccinated : Cell := none
  people_fully_vaccinated : Cell := none
  people_fully_vaccinated_per_hundred : Cell := none
  total_cases_per_million : Cell := none
  death_rate : Cell := none
  cases_per_million : Cell := none
  deaths_per_million : Cell := none
deriving DecidableEq

/-- The fixed allowlist from `main.py` (`countries_of_interest`). -/
def countries_of_interest : List String :=
  ["Kenya", "United States", "India", "Brazil", "United Kingdom",
   "South Africa", "Germany", "China", "Japan", "Australia"]

/-- The membership test `df['location'].isin(countries_of_interest)`:
a missing location is not in the list. -/
def isinAllowlist (r : Row) : Bool :=
  match r.location with
  | some l => countries_of_interest.contains l
  | none => false

/-- Line 36: `df[df['location'].isin(countries_of_interest)]`. -/
def filterCountries (df : List Row) : List Row :=
  df.filter isinAllowlist

/-- The seven key counter columns of `key_columns` in `main.py`. -/
inductive KeyCol
  | tc | nc | td | nd | tv | pv | pfv
deriving DecidableEq

/-- Read a key counter column of a row. -/
def getKey : KeyCol → Row → Cell
  | .tc, r => r.total_cases
  | .nc, r => r.new_cases
  | .td, r => r.total_deaths
  | .nd, r => r.new_deaths
  | .tv, r => r.total_vaccinations
  | .pv, r => r.people_vaccinated
  | .pfv, r => r.people_fully_vaccinated

/-- The most recent non-missing value of column `c` among the earlier
rows `prior` belonging to the same group key `loc`. -/
def lastSeen (loc : Option String) (c : KeyCol) (prior : List Row) : Cell :=
  carried none ((prior.filter (fun r => r.location == loc)).map (getKey c))

/-- Forward-fill one row given all earlier rows of the frame
(line 41: `groupby('location')[key_columns].fillna(method='ffill')`).
A row whose group key is missing is excluded from every group; the
column assignment then leaves its key columns missing. -/
def fillRowWith (prior : List Row) (r : Row) : Row :=
  match r.location with
  | none =>
      { r with total_cases := none, new_cases := none, total_deaths := none,
               new_deaths := none, total_vaccinations := none,
               people_vaccinated := none, people_fully_vaccinated := none }
  | some _ =>
      { r with
        total_cases := orD r.total_cases (lastSeen r.location .tc prior),
        new_cases := orD r.new_cases (lastSeen r.location .nc prior),
        total_deaths := orD r.total_deaths (lastSeen r.location .td prior),
        new_deaths := orD r.new_deaths (lastSeen r.location .nd prior),
        total_vaccinations := orD r.total_vaccinations (lastSeen r.location .tv prior),
        people_vaccinated := orD r.people_vaccinated (lastSeen r.location .pv prior),
        people_fully_vaccinated := orD r.people_fully_vaccinated (lastSeen r.location .pfv prior) }

/-- Scan of the whole frame for the group-wise forward-fill. -/
def ffillGo (prior : List Row) : List Row → List Row
  | [] => []
  | r :: rest => fillRowWith prior r :: ffillGo (prior ++ [r]) rest

/-- Line 41 applied to a frame. -/
def ffillFrame (df : List Row) : List Row := ffillGo [] df

/-- Line 42: `df_filtered[key_columns].fillna(0)` at one row. -/
def zfillRow (r : Row) : Row :=
  { r with
    total_cases := some (r.total_cases.getD 0),
    new_cases := some (r.new_cases.getD 0),
    total_deaths := some (r.total_deaths.getD 0),
    new_deaths := some (r.new_deaths.getD 0),
    total_vaccinations := some (r.total_vaccinations.getD 0),
    people_vaccinated := some (r.people_vaccinated.getD 0),
    people_fully_vaccinated := some (r.people_fully_vaccinated.getD 0) }

/-- Line 42 applied to the frame. -/
def zfillFrame (df : List Row) : List Row := df.map zfillRow

/-- Pandas float division on cells.  A missing operand propagates (NaN),
and a zero divisor yields a non-finite float (NaN for 0/0, an infinity
otherwise); all non-finite outcomes are modelled as `none`. -/
def divQ : Cell → Cell → Cell
  | some x, some y => if y = 0 then none else some (x / y)
  | _, _ => none

/-- Lines 44-46: the three derived columns of one row. -/
def enrichRow (r : Row) : Row :=
  { r with
    death_rate := divQ r.total_deaths r.total_cases,
    cases_per_million := (divQ r.total_cases r.population).map (fun q => q * 1000000),
    deaths_per_million := (divQ r.total_deaths r.population).map (fun q => q * 1000000) }

/-- Lines 44-46 applied to the frame. -/
def enrichFrame (df : List Row) : List Row := df.map enrichRow

/-- Line 47: `df_filtered.dropna(subset=['date', 'location'])`. -/
def dropnaDateLocation (df : List Row) : List Row :=
  df.filter (fun r => r.date.isSome && r.location.isSome)

/-- The cleaned table just before the final drop (lines 31-46). -/
def preDropTable (df : List Row) : List Row :=
  enrichFrame (zfillFrame (ffillFrame (filterCountries df)))

/-- The whole Cleaner/Transformer stage, lines 31-47: filter to the
allowlist, group-wise forward-fill, zero-fill, derive the three ratio
columns, drop rows with missing date or location. -/
def cleanPipeline (df : List Row) : List Row :=
  dropnaDateLocation (preDropTable df)

example : ffill none [none, some (5 : ℚ), none] = [none, some 5, some 5] := by decide

example :
    cleanPipeline [{ location := some "France", date := some 1 }] = [] := by decide

/-- Insert into a sorted list with respect to `le`. -/
def insertLe {α : Type} (le : α → α → Bool) (x : α) : List α → List α
  | [] => [x]
  | y :: ys => if le x y then x :: y :: ys else y :: insertLe le x ys

/-- Insertion sort.  `main.py` uses `sort_values`, whose tie order is
unspecified (quicksort); any sort agreeing with `le` is a faithful model. -/
def isort {α : Type} (le : α → α → Bool) : List α → List α
  | [] => []
  | x :: xs => insertLe le x (isort le xs)

/-- Row order of `sort_values('date')`: ascending dates, NaT last. -/
def dateLe (a b : Row) : Bool :=
  match a.date, b.date with
  | some x, some y => decide (x ≤ y)
  | some _, none => true
  | none, some _ => false
  | none, none => true

/-- The frame sorted by date (`df.sort_values('date')`). -/
def sortByDate (df : List Row) : List Row := isort dateLe df

/-- Code-point lexicographic comparison of character lists. -/
def strLtChars : List Char → List Char → Bool
  | [], [] => false
  | [], _ :: _ => true
  | _ :: _, [] => false
  | a :: as, b :: bs =>
    if a.val < b.val then true
    else if b.val < a.val then false
    else strLtChars as bs

/-- Lexicographic order on group keys (`groupby` sorts its keys). -/
def strLe (a b : String) : Bool := strLtChars a.data b.data || a == b

/-- The group keys of `groupby('location')`: the distinct non-missing
locations, in sorted order. -/
def sortedLocs (df : List Row) : List String :=
  isort strLe (df.filterMap (fun r => r.location)).dedup

/-- One row of a `groupby('location').last()` result. -/
structure SnapRow where
  location : String := ""
  iso_code : Option String := none
  date : Option Int := none
  population : Cell := none
  total_cases : Cell := none
  new_cases : Cell := none
  total_deaths : Cell := none
  new_deaths : Cell := none
  total_vaccinations : Cell := none
  people_vaccinated : Cell := none
  people_fully_vaccinated : Cell := none
  people_fully_vaccinated_per_hundred : Cell := none
  total_cases_per_million : Cell := none
  death_rate : Cell := none
  cases_per_million : Cell := none
  deaths_per_million : Cell := none
deriving DecidableEq

/-- The `groupby.last()` aggregate of one column for group `l`: the last
non-null entry of the column over the group's rows in date-sorted frame
order. -/
def colLast {α : Type} (df : List Row) (l : String) (f : Row → Option α) : Option α :=
  carried none (((sortByDate df).filter (fun r => r.location == some l)).map f)

/-- The snapshot row of one group. -/
def mkSnap (df : List Row) (l : String) : SnapRow :=
  { location := l,
    iso_code := colLast df l (fun r => r.iso_code),
    date := colLast df l (fun r => r.date),
    population := colLast df l (fun r => r.population),
    total_cases := colLast df l (fun r => r.total_cases),
    new_cases := colLast df l (fun r => r.new_cases),
    total_deaths := colLast df l (fun r => r.total_deaths),
    new_deaths := colLast df l (fun r => r.new_deaths),
    total_vaccinations := colLast df l (fun r => r.total_vaccinations),
    people_vaccinated := colLast df l (fun r => r.people_vaccinated),
    people_fully_vaccinated := colLast df l (fun r => r.people_fully_vaccinated),
    people_fully_vaccinated_per_hundred :=
      colLast df l (fun r => r.people_fully_vaccinated_per_hundred),
    total_cases_per_million := colLast df l (fun r => r.total_cases_per_million),
    death_rate := colLast df l (fun r => r.death_rate),
    cases_per_million := colLast df l (fun r => r.cases_per_million),
    deaths_per_million := colLast df l (fun r => r.deaths_per_million) }

/-- `df.sort_values('date').groupby('location').last()` (lines 80, 133):
one row per present location, each column its last non-null value in
date order. -/
def snapshot (df : List Row) : List SnapRow :=
  (sortedLocs df).map (mkSnap df)

/-- Bar-chart order of `sort_values(metric, ascending=False)`: defined
values descending, missing values last. -/
def metricLe (f : SnapRow → Cell) (a b : SnapRow) : Bool :=
  match f a, f b with
  | some x, some y => decide (y ≤ x)
  | some _, none => true
  | none, some _ => false
  | none, none => true

/-- Sort the snapshot descending by one metric. -/
def sortDescBy (f : SnapRow → Cell) (l : List SnapRow) : List SnapRow :=
  isort (metricLe f) l

/-- Panel 3 of the figure: death rate bars as percentages, sorted
descending by death rate (lines 80-82). -/
def deathRatePanel (latest : List SnapRow) : List (String × Cell) :=
  (sortDescBy (fun e => e.death_rate) latest).map
    (fun e => (e.location, e.death_rate.map (fun x => x * 100)))

/-- Trailing 7-point rolling mean (`rolling(7).mean()`): defined only
when the full window exists and holds no missing value. -/
def window7Mean (l : List Cell) : Cell :=
  if l.length = 7 then
    (l.foldr (fun o acc =>
      match o, acc with
      | some v, some a => some (v + a)
      | _, _ => none) (some 0)).map (fun s => s / 7)
  else none

/-- The rolling series of `rolling(7).mean()` over one column. -/
def rolling7 (l : List Cell) : List Cell :=
  (List.range l.length).map (fun i =>
    if 6 ≤ i then window7Mean ((l.drop (i - 6)).take 7) else none)

example : rolling7 [some 1, some 2, some 3, none, some 5, some 6] =
    [none, none, none, none, none, none] := by decide

/-- One console line printed by the script; payload strings carry the
content the spec cares about (filenames, the data source, insight text). -/
inductive Msg
  | header (line : String)
  | loadingData
  | loadedOk
  | fileNotFound (fname : String)
  | downloadHint (source : String)
  | cleaningData
  | generatingViz
  | savedViz (fname : String)
  | generatingMaps
  | mapsSavedHeader
  | savedMap (fname : String)
  | insightsHeader
  | insightLine (line : String)
  | analysisComplete
deriving DecidableEq

/-- Numeric content of the 4x2 figure written to `covid_analysis.png`:
the seven panels in source order.  Line panels carry, per country of the
allowlist, the plotted (date, value) pairs; bar panels carry the
(country, height) pairs in their plotted order. -/
structure ChartFigure where
  panel1 : List (String × List (Option Int × Cell))
  panel2 : List (String × List (Option Int × Cell))
  panel3 : List (String × Cell)
  panel4 : List (String × Cell)
  panel5 : List (String × Cell)
  panel6 : List (String × List (Option Int × Cell))
  panel7 : List (String × Cell)
deriving DecidableEq

/-- Numeric content of one choropleth HTML document: per snapshot row the
ISO code used as the location key, the colouring value, and the hover
name; plus the fixed title. -/
structure MapFigure where
  entries : List (Option String × Cell × String)
  title : String
deriving DecidableEq

/-- Everything the one-shot run leaves behind: console lines and the
three output artifacts (`none` = the file was not created). -/
structure PipelineOutput where
  console : List Msg
  covid_analysis_png : Option ChartFigure
  covid_cases_map_html : Option MapFigure
  covid_vaccination_map_html : Option MapFigure
deriving DecidableEq

/-- The (date, column) pairs plotted for one country of a line panel. -/
def linePanelSeries (cleaned : List Row) (f : Row → Cell) (c : String) :
    List (Option Int × Cell) :=
  (cleaned.filter (fun r => r.location == some c)).map (fun r => (r.date, f r))

/-- Plot 2 content for one country: dates against the 7-day rolling mean
of new cases. -/
def rollingPanelSeries (cleaned : List Row) (c : String) : List (Option Int × Cell) :=
  let cd := cleaned.filter (fun r => r.location == some c)
  (cd.map (fun r => r.date)).zip (rolling7 (cd.map (fun r => r.new_cases)))

/-- The whole run of `main.py`, lines 11-165, as a function of the
process inputs.  `argv` and `env` model the command line and the
environment; the script reads neither.  `inputFile` is the parsed
content of `owid-covid-data.csv`, or `none` when the file is absent. -/
def runPipeline (argv : List String) (env : List (String × String))
    (inputFile : Option (List Row)) : PipelineOutput :=
  have _ := argv
  have _ := env
  match inputFile with
  | none =>
      { console :=
          [Msg.header "COVID-19 Global Data Analysis",
           Msg.header "============================",
           Msg.loadingData,
           Msg.fileNotFound "owid-covid-data.csv",
           Msg.downloadHint "Our World in Data"],
        covid_analysis_png := none,
        covid_cases_map_html := none,
        covid_vaccination_map_html := none }
  | some df =>
      let cleaned := cleanPipeline df
      let latest := snapshot cleaned
      let p3t := sortDescBy (fun e => e.death_rate) latest
      let p4t := sortDescBy (fun e => e.cases_per_million) p3t
      let p5t := sortDescBy (fun e => e.deaths_per_million) p4t
      let p7t := sortDescBy (fun e => e.people_fully_vaccinated_per_hundred) p5t
      let fig : ChartFigure :=
        { panel1 := countries_of_interest.map
            (fun c => (c, linePanelSeries cleaned (fun r => r.total_cases) c)),
          panel2 := countries_of_interest.map
            (fun c => (c, rollingPanelSeries cleaned c)),
          panel3 := p3t.map
            (fun e => (e.location, e.death_rate.map (fun x => x * 100))),
          panel4 := p4t.map (fun e => (e.location, e.cases_per_million)),
          panel5 := p5t.map (fun e => (e.location, e.deaths_per_million)),
          panel6 := countries_of_interest.map
            (fun c => (c, linePanelSeries cleaned
              (fun r => r.people_fully_vaccinated_per_hundred) c)),
          panel7 := p7t.map
            (fun e => (e.location, e.people_fully_vaccinated_per_hundred)) }
      let latestGlobal := snapshot df
      { console :=
          [Msg.header "COVID-19 Global Data Analysis",
           Msg.header "============================",
           Msg.loadingData,
           Msg.loadedOk,
           Msg.cleaningData,
           Msg.generatingViz,
           Msg.savedViz "covid_analysis.png",
           Msg.generatingMaps,
           Msg.mapsSavedHeader,
           Msg.savedMap "covid_cases_map.html",
           Msg.savedMap "covid_vaccination_map.html",
           Msg.insightsHeader,
           Msg.insightLine "1. Vaccination Progress: Countries showed varying speeds in vaccination rollout.",
           Msg.insightLine "2. Case Trends: Different countries experienced waves at different times.",
           Msg.insightLine "3. Death Rates: Significant variation between countries (see visualization).",
           Msg.insightLine "4. Cases Per Million: Higher in densely populated countries.",
           Msg.insightLine "5. Global Disparities: Clear differences between developed and developing nations.",
           Msg.analysisComplete],
        covid_analysis_png := some fig,
        covid_cases_map_html := some
          { entries := latestGlobal.map
              (fun e => (e.iso_code, e.total_cases_per_million, e.location)),
            title := "Total COVID-19 Cases Per Million Population" },
        covid_vaccination_map_html := some
          { entries := latestGlobal.map
              (fun e => (e.iso_code, e.people_fully_vaccinated_per_hundred, e.location)),
            title := "Percentage of Population Fully Vaccinated" } }

theorem orD_assoc {α : Type} (a b c : Option α) :
    orD (orD a b) c = orD a (orD b c) := by
  cases a <;> cases b <;> rfl

theorem orD_none_right {α : Type} (a : Option α) : orD a none = a := by
  cases a <;> rfl

theorem nth_lt_length {α : Type} {l : List α} {i : Nat} {x : α}
    (h : nth l i = some x) : i < l.length := by
  induction l generalizing i with
  | nil => simp [nth] at h
  | cons y ys ih =>
    cases i with
    | zero => simp
    | succ n => exact Nat.succ_lt_succ (ih h)

theorem nth_of_lt_length {α : Type} {l : List α} {i : Nat}
    (h : i < l.length) : ∃ x, nth l i = some x := by
  induction l generalizing i with
  | nil => simp at h
  | cons y ys ih =>
    cases i with
    | zero => exact ⟨y, rfl⟩
    | succ n => exact ih (Nat.lt_of_succ_lt_succ h)

theorem mem_of_nth {α : Type} {l : List α} {i : Nat} {x : α}
    (h : nth l i = some x) : x ∈ l := by
  induction l generalizing i with
  | nil => simp [nth] at h
  | cons y ys ih =>
    cases i with
    | zero => injection h with h; subst h; exact List.mem_cons_self y ys
    | succ n => exact List.mem_cons_of_mem y (ih h)

theorem nth_of_mem {α : Type} {l : List α} {x : α}
    (h : x ∈ l) : ∃ i, nth l i = some x := by
  induction l with
  | nil => cases h
  | cons y ys ih =>
    rcases List.mem_cons.mp h with rfl | hm
    · exact ⟨0, rfl⟩
    · obtain ⟨i, hi⟩ := ih hm
      exact ⟨i + 1, hi⟩

theorem nth_map {α β : Type} (f : α → β) (l : List α) (i : Nat) :
    nth (l.map f) i = (nth l i).map f := by
  induction l generalizing i with
  | nil => rfl
  | cons y ys ih =>
    cases i with
    | zero => rfl
    | succ n => exact ih n

theorem nth_take {α : Type} {l : List α} {i n : Nat} (h : i < n) :
    nth (l.take n) i = nth l i := by
  induction l generalizing i n with
  | nil => simp [nth]
  | cons y ys ih =>
    cases n with
    | zero => exact absurd h (Nat.not_lt_zero i)
    | succ m =>
      cases i with
      | zero => rfl
      | succ k => exact ih (Nat.lt_of_succ_lt_succ h)

theorem nth_drop {α : Type} (l : List α) (m k : Nat) :
    nth (l.drop m) k = nth l (m + k) := by
  induction l generalizing m with
  | nil => simp [nth]
  | cons y ys ih =>
    cases m with
    | zero => simp
    | succ n =>
      have : n + 1 + k = (n + k) + 1 := by omega
      rw [this]
      exact ih n

theorem take_succ_nth {α : Type} {l : List α} {j : Nat} {x : α}
    (h : nth l j = some x) : l.take (j + 1) = l.take j ++ [x] := by
  induction l generalizing j with
  | nil => simp [nth] at h
  | cons y ys ih =>
    cases j with
    | zero => cases h; rfl
    | succ n =>
      simp only [List.take_succ_cons, List.cons_append]
      rw [← ih h]

theorem carried_append {α : Type} (a : Option α) (l₁ l₂ : List (Option α)) :
    carried a (l₁ ++ l₂) = carried (carried a l₁) l₂ := by
  simp [carried, List.foldl_append]

theorem carried_singleton {α : Type} (a x : Option α) :
    carried a [x] = orD x a := rfl

theorem carried_all_none {α : Type} {l : List (Option α)} (a : Option α)
    (h : ∀ x ∈ l, x = none) : carried a l = a := by
  induction l generalizing a with
  | nil => rfl
  | cons y ys ih =>
    have hy : y = none := h y (List.mem_cons_self y ys)
    subst hy
    exact ih a (fun x hx => h x (List.mem_cons_of_mem none hx))

theorem ffill_length (last : Cell) (s : List Cell) :
    (ffill last s).length = s.length := by
  induction s generalizing last with
  | nil => rfl
  | cons x xs ih => simp [ffill, ih]

theorem ffill_nth {s : List Cell} {i : Nat} (last : Cell) (h : i < s.length) :
    nth (ffill last s) i = some (carried last (s.take (i + 1))) := by
  induction s generalizing last i with
  | nil => simp at h
  | cons x xs ih =>
    cases i with
    | zero =>
      simp [ffill, nth, List.take_succ_cons, carried_singleton]
    | succ n =>
      have hn : n < xs.length := Nat.lt_of_succ_lt_succ h
      show nth (ffill (orD x last) xs) n = _
      rw [ih (orD x last) hn]
      simp only [List.take_succ_cons]
      have : carried last (x :: xs.take (n + 1)) =
          carried (orD x last) (xs.take (n + 1)) := by
        show carried last ([x] ++ xs.take (n + 1)) = _
        rw [carried_append, carried_singleton]
      rw [this]

/-- The series of key column `c` for country `loc`, in frame row order. -/
def colSeries (c : KeyCol) (loc : String) (df : List Row) : List Cell :=
  (df.filter (fun r => r.location == some loc)).map (getKey c)

theorem fillRowWith_location (prior : List Row) (r : Row) :
    (fillRowWith prior r).location = r.location := by
  cases hl : r.location <;> simp [fillRowWith, hl]

theorem getKey_fillRowWith {r : Row} {l : String} (prior : List Row) (c : KeyCol)
    (h : r.location = some l) :
    getKey c (fillRowWith prior r) = orD (getKey c r) (lastSeen (some l) c prior) := by
  cases c <;> simp [fillRowWith, h, getKey]

theorem lastSeen_append_same {r : Row} {loc : Option String} (c : KeyCol)
    (prior : List Row) (h : (r.location == loc) = true) :
    lastSeen loc c (prior ++ [r]) = orD (getKey c r) (lastSeen loc c prior) := by
  simp [lastSeen, List.filter_append, h, carried_append, carried_singleton]

theorem lastSeen_append_other {r : Row} {loc : Option String} (c : KeyCol)
    (prior : List Row) (h : (r.location == loc) = false) :
    lastSeen loc c (prior ++ [r]) = lastSeen loc c prior := by
  simp [lastSeen, List.filter_append, h]

theorem ffillGo_series (c : KeyCol) (l : String) (df : List Row) :
    ∀ prior, colSeries c l (ffillGo prior df) =
      ffill (lastSeen (some l) c prior) (colSeries c l df) := by
  induction df with
  | nil => intro prior; rfl
  | cons r rest ih =>
    intro prior
    by_cases hl : (r.location == some l) = true
    · have hloc : r.location = some l := by
        simpa using hl
      have hfl : ((fillRowWith prior r).location == some l) = true := by
        rw [fillRowWith_location]; exact hl
      simp only [ffillGo, colSeries, List.filter_cons, hfl, hl, if_pos,
        List.map_cons]
      show getKey c (fillRowWith prior r) :: colSeries c l (ffillGo (prior ++ [r]) rest) =
        ffill (lastSeen (some l) c prior) (getKey c r :: colSeries c l rest)
      rw [getKey_fillRowWith prior c hloc, ih (prior ++ [r]),
        lastSeen_append_same c prior hl]
      rfl
    · have hl' : (r.location == some l) = false := by
        simpa using hl
      have hfl : ((fillRowWith prior r).location == some l) = false := by
        rw [fillRowWith_location]; exact hl'
      simp only [ffillGo, colSeries, List.filter_cons, hfl, hl']
      show colSeries c l (ffillGo (prior ++ [r]) rest) = _
      rw [ih (prior ++ [r]), lastSeen_append_other c prior hl']
      rfl

/-- The group-wise forward-fill of the frame acts on each country's
series exactly as the one-series forward-fill. -/
theorem ffillFrame_series (c : KeyCol) (l : String) (df : List Row) :
    colSeries c l (ffillFrame df) = ffill none (colSeries c l df) := by
  have h := ffillGo_series c l df []
  simpa [ffillFrame, lastSeen] using h

theorem zfillRow_location (r : Row) : (zfillRow r).location = r.location := rfl

theorem getKey_zfillRow (c : KeyCol) (r : Row) :
    getKey c (zfillRow r) = some ((getKey c r).getD 0) := by
  cases c <;> rfl

/-- The zero-fill of the frame maps each country's series cell-wise. -/
theorem zfillFrame_series (c : KeyCol) (l : String) (df : List Row) :
    colSeries c l (zfillFrame df) =
      (colSeries c l df).map (fun o => some (o.getD 0)) := by
  induction df with
  | nil => rfl
  | cons r rest ih =>
    by_cases hl : (r.location == some l) = true
    · have hfl : ((zfillRow r).location == some l) = true := by
        rw [zfillRow_location]; exact hl
      simp only [zfillFrame, colSeries, List.map_cons, List.filter_cons, hfl, hl,
        if_pos] at ih ⊢
      rw [getKey_zfillRow]
      exact congrArg _ ih
    · have hl' : (r.location == some l) = false := by
        simpa using hl
      have hfl : ((zfillRow r).location == some l) = false := by
        rw [zfillRow_location]; exact hl'
      simp only [zfillFrame, colSeries, List.map_cons, List.filter_cons, hfl, hl'] at ih ⊢
      exact ih

/-- Specification-side reading of "the last non-null entry of a column":
the first non-missing value when scanning from the end. -/
def lastSome {α : Type} (l : List (Option α)) : Option α :=
  l.reverse.findSome? id

theorem findSome_id_cons {α : Type} (x : Option α) (l : List (Option α)) :
    (x :: l).findSome? id = orD x (l.findSome? id) := by
  cases x <;> simp [List.findSome?, orD]

theorem carried_eq_orD_lastSome {α : Type} (l : List (Option α)) :
    ∀ a, carried a l = orD (lastSome l) a := by
  induction l with
  | nil => intro a; rfl
  | cons x xs ih =>
    intro a
    show carried (orD x a) xs = _
    rw [ih (orD x a)]
    simp [lastSome, List.findSome?_append, findSome_id_cons]
    cases xs.reverse.findSome? id <;> cases x <;> rfl

/-- The forward-fill carry over a whole series is the last non-missing
value of the series. -/
theorem carried_none_eq_lastSome {α : Type} (l : List (Option α)) :
    carried none l = lastSome l := by
  rw [carried_eq_orD_lastSome, orD_none_right]

theorem insertLe_perm {α : Type} (le : α → α → Bool) (x : α) (l : List α) :
    List.Perm (insertLe le x l) (x :: l) := by
  induction l with
  | nil => exact List.Perm.refl _
  | cons y ys ih =>
    by_cases h : le x y = true
    · simp [insertLe, h]
    · simp only [insertLe, h, if_neg, Bool.not_eq_true]
      exact List.Perm.trans (List.Perm.cons y ih) (List.Perm.swap x y ys)

theorem isort_perm {α : Type} (le : α → α → Bool) (l : List α) :
    List.Perm (isort le l) l := by
  induction l with
  | nil => exact List.Perm.refl _
  | cons x xs ih =>
    exact List.Perm.trans (insertLe_perm le x (isort le xs)) (List.Perm.cons x ih)

theorem mem_insertLe {α : Type} {le : α → α → Bool} {x z : α} {l : List α}
    (h : z ∈ insertLe le x l) : z = x ∨ z ∈ l := by
  have := (insertLe_perm le x l).mem_iff.mp h
  simpa using this

theorem pairwise_insertLe {α : Type} {le : α → α → Bool} {x : α} {l : List α}
    (total : ∀ a b, le a b = true ∨ le b a = true)
    (trans : ∀ a b c, le a b = true → le b c = true → le a c = true)
    (h : l.Pairwise (fun a b => le a b = true)) :
    (insertLe le x l).Pairwise (fun a b => le a b = true) := by
  induction l with
  | nil => simp [insertLe]
  | cons y ys ih =>
    rcases List.pairwise_cons.mp h with ⟨hy, hys⟩
    by_cases hxy : le x y = true
    · simp only [insertLe, hxy, if_pos]
      refine List.pairwise_cons.mpr ⟨?_, h⟩
      intro z hz
      rcases List.mem_cons.mp hz with rfl | hz'
      · exact hxy
      · exact trans x y z hxy (hy z hz')
    · have hyx : le y x = true := (total x y).resolve_left hxy
      simp only [insertLe, hxy, if_neg, Bool.not_eq_true]
      refine List.pairwise_cons.mpr ⟨?_, ih hys⟩
      intro z hz
      rcases mem_insertLe hz with rfl | hz'
      · exact hyx
      · exact hy z hz'

theorem pairwise_isort {α : Type} (le : α → α → Bool) (l : List α)
    (total : ∀ a b, le a b = true ∨ le b a = true)
    (trans : ∀ a b c, le a b = true → le b c = true → le a c = true) :
    (isort le l).Pairwise (fun a b => le a b = true) := by
  induction l with
  | nil => exact List.Pairwise.nil
  | cons x xs ih => exact pairwise_insertLe total trans ih

theorem metricLe_total (f : SnapRow → Cell) (a b : SnapRow) :
    metricLe f a b = true ∨ metricLe f b a = true := by
  unfold metricLe
  cases f a <;> cases f b <;> simp
  exact le_total _ _

theorem metricLe_trans (f : SnapRow → Cell) (a b c : SnapRow)
    (hab : metricLe f a b = true) (hbc : metricLe f b c = true) :
    metricLe f a c = true := by
  unfold metricLe at hab hbc ⊢
  cases ha : f a <;> cases hb : f b <;> cases hc : f c <;>
    simp [ha, hb, hc] at hab hbc ⊢
  exact le_trans hbc hab

/-- Bar order in the claim's language: wherever a later bar has a defined
height, every earlier bar has a defined height at least as large. -/
def barGE (f : SnapRow → Cell) (a b : SnapRow) : Prop :=
  ∀ x, f b = some x → ∃ y, f a = some y ∧ x ≤ y

theorem metricLe_barGE {f : SnapRow → Cell} {a b : SnapRow}
    (h : metricLe f a b = true) : barGE f a b := by
  intro x hx
  unfold metricLe at h
  cases ha : f a <;> rw [ha, hx] at h
  · simp at h
  · exact ⟨_, rfl, by simpa using h⟩

theorem sortDescBy_perm (f : SnapRow → Cell) (l : List SnapRow) :
    List.Perm (sortDescBy f l) l := isort_perm _ l

theorem sortDescBy_sorted (f : SnapRow → Cell) (l : List SnapRow) :
    (sortDescBy f l).Pairwise (barGE f) := by
  have h := pairwise_isort (metricLe f) l (metricLe_total f) (metricLe_trans f)
  exact h.imp metricLe_barGE

theorem mem_ffillGo {r : Row} :
    ∀ {df prior : List Row}, r ∈ ffillGo prior df →
      ∃ p r₀, r₀ ∈ df ∧ r = fillRowWith p r₀ := by
  intro df
  induction df with
  | nil => intro prior h; cases h
  | cons s rest ih =>
    intro prior h
    rcases List.mem_cons.mp h with rfl | h'
    · exact ⟨prior, s, List.mem_cons_self s rest, rfl⟩
    · obtain ⟨p, r₀, hmem, heq⟩ := ih h'
      exact ⟨p, r₀, List.mem_cons_of_mem s hmem, heq⟩

/-- Any row of the enriched pre-drop table is the image, under the three
fill/derive steps, of a raw row that passed the allowlist filter. -/
theorem mem_preDropTable {r : Row} {df : List Row} (h : r ∈ preDropTable df) :
    ∃ p r₀, r₀ ∈ df ∧ isinAllowlist r₀ = true ∧
      r = enrichRow (zfillRow (fillRowWith p r₀)) := by
  obtain ⟨r₁, h₁, hr₁⟩ := List.mem_map.mp h
  obtain ⟨r₂, h₂, hr₂⟩ := List.mem_map.mp h₁
  obtain ⟨p, r₀, hmem, heq⟩ := mem_ffillGo h₂
  rcases List.mem_filter.mp hmem with ⟨hmem₀, hallow⟩
  exact ⟨p, r₀, hmem₀, hallow, by rw [← hr₁, ← hr₂, heq]⟩

/-- The columns the Cleaner neither fills nor derives. -/
def sameNonKey (a b : Row) : Prop :=
  a.location = b.location ∧ a.iso_code = b.iso_code ∧ a.date = b.date ∧
  a.population = b.population ∧
  a.people_fully_vaccinated_per_hundred = b.people_fully_vaccinated_per_hundred ∧
  a.total_cases_per_million = b.total_cases_per_million

theorem fillRowWith_sameNonKey (p : List Row) (r : Row) :
    sameNonKey (fillRowWith p r) r := by
  cases hl : r.location <;>
    exact ⟨fillRowWith_location p r, by simp [fillRowWith, hl], by simp [fillRowWith, hl],
      by simp [fillRowWith, hl], by simp [fillRowWith, hl], by simp [fillRowWith, hl]⟩

theorem zfillRow_sameNonKey (r : Row) : sameNonKey (zfillRow r) r :=
  ⟨rfl, rfl, rfl, rfl, rfl, rfl⟩

theorem enrichRow_sameNonKey (r : Row) : sameNonKey (enrichRow r) r :=
  ⟨rfl, rfl, rfl, rfl, rfl, rfl⟩

theorem sameNonKey_trans {a b c : Row} (h₁ : sameNonKey a b) (h₂ : sameNonKey b c) :
    sameNonKey a c := by
  obtain ⟨x1, x2, x3, x4, x5, x6⟩ := h₁
  obtain ⟨y1, y2, y3, y4, y5, y6⟩ := h₂
  exact ⟨x1.trans y1, x2.trans y2, x3.trans y3, x4.trans y4, x5.trans y5, x6.trans y6⟩

/-- The three fill/derive steps leave every non-key, non-derived column
of a row unchanged. -/
theorem cleanSteps_sameNonKey (p : List Row) (r₀ : Row) :
    sameNonKey (enrichRow (zfillRow (fillRowWith p r₀))) r₀ :=
  sameNonKey_trans (enrichRow_sameNonKey _)
    (sameNonKey_trans (zfillRow_sameNonKey _) (fillRowWith_sameNonKey p r₀))

/-- Any row of the fully cleaned table descends from a raw allowlisted
row with all non-key columns intact. -/
theorem mem_cleanPipeline {r : Row} {df : List Row} (h : r ∈ cleanPipeline df) :
    ∃ p r₀, r₀ ∈ df ∧ isinAllowlist r₀ = true ∧
      r = enrichRow (zfillRow (fillRowWith p r₀)) ∧ sameNonKey r r₀ := by
  rcases List.mem_filter.mp h with ⟨hpre, _⟩
  obtain ⟨p, r₀, hmem, hallow, heq⟩ := mem_preDropTable hpre
  exact ⟨p, r₀, hmem, hallow, heq, heq ▸ cleanSteps_sameNonKey p r₀⟩

theorem isinAllowlist_location {r : Row} (h : isinAllowlist r = true) :
    ∃ l, r.location = some l ∧ l ∈ countries_of_interest := by
  unfold isinAllowlist at h
  cases hl : r.location with
  | none => rw [hl] at h; cases h
  | some l =>
    rw [hl] at h
    exact ⟨l, rfl, by simpa using h⟩

/-- C1: if the input file `owid-covid-data.csv` is absent, the pipeline
prints a user-facing message naming the expected filename and its source,
terminates early and cleanly (no later-stage console output), and creates
none of the three output artifacts. -/
theorem claim_C1_missing_input_file (argv : List String)
    (env : List (String × String)) :
    (runPipeline argv env none).covid_analysis_png = none ∧
    (runPipeline argv env none).covid_cases_map_html = none ∧
    (runPipeline argv env none).covid_vaccination_map_html = none ∧
    Msg.fileNotFound "owid-covid-data.csv" ∈ (runPipeline argv env none).console ∧
    Msg.downloadHint "Our World in Data" ∈ (runPipeline argv env none).console ∧
    Msg.cleaningData ∉ (runPipeline argv env none).console ∧
    Msg.analysisComplete ∉ (runPipeline argv env none).console := by
  have hc : (runPipeline argv env none).console =
      [Msg.header "COVID-19 Global Data Analysis",
       Msg.header "============================",
       Msg.loadingData,
       Msg.fileNotFound "owid-covid-data.csv",
       Msg.downloadHint "Our World in Data"] := rfl
  refine ⟨rfl, rfl, rfl, ?_, ?_, ?_, ?_⟩ <;> rw [hc] <;> decide

/-- C10: the pipeline is deterministic; it consumes neither command-line
arguments nor environment variables, so any two runs on the same input
file content produce identical console text and identical numeric content
in all three output artifacts. -/
theorem claim_C10_deterministic (argv₁ argv₂ : List String)
    (env₁ env₂ : List (String × String)) (inputFile : Option (List Row)) :
    runPipeline argv₁ env₁ inputFile = runPipeline argv₂ env₂ inputFile := rfl

/-- C2: every row of the dataset produced by the Cleaner has a location
in the fixed 10-country allowlist; no row with a location outside the
list (or with a missing location) survives. -/
theorem claim_C2_allowlist (df : List Row) (r : Row)
    (h : r ∈ cleanPipeline df) :
    ∃ l, r.location = some l ∧ l ∈ countries_of_interest := by
  obtain ⟨p, r₀, _, hallow, _, hsame⟩ := mem_cleanPipeline h
  obtain ⟨l, hl, hmem⟩ := isinAllowlist_location hallow
  exact ⟨l, hsame.1.trans hl, hmem⟩

/-- A minimal concrete raw row used by the witnesses: an allowlisted
country with a present date and every other column missing. -/
def rowW : Row := { location := some "Kenya", date := some 1 }

/-- The image of `rowW` under the Cleaner's fill and derive steps. -/
def rowWClean : Row := enrichRow (zfillRow (fillRowWith [] rowW))

theorem claim_C2_allowlist_witness :
    ∃ l, rowWClean.location = some l ∧ l ∈ countries_of_interest :=
  claim_C2_allowlist [rowW] rowWClean (by decide)

/-- C4: the three derived columns of each enriched row are deterministic
pure functions of that row's (filled) total_deaths, total_cases and
population: rows agreeing on those three fields get identical derived
values, and the values follow the stated formulas (ratio, and ratio
scaled by one million). -/
theorem claim_C4_derived_columns_pure (r₁ r₂ : Row)
    (htd : r₁.total_deaths = r₂.total_deaths)
    (htc : r₁.total_cases = r₂.total_cases)
    (hp : r₁.population = r₂.population) :
    ((enrichRow r₁).death_rate = (enrichRow r₂).death_rate ∧
     (enrichRow r₁).cases_per_million = (enrichRow r₂).cases_per_million ∧
     (enrichRow r₁).deaths_per_million = (enrichRow r₂).deaths_per_million) ∧
    (∀ r : Row,
      (enrichRow r).death_rate = divQ r.total_deaths r.total_cases ∧
      (enrichRow r).cases_per_million =
        (divQ r.total_cases r.population).map (fun q => q * 1000000) ∧
      (enrichRow r).deaths_per_million =
        (divQ r.total_deaths r.population).map (fun q => q * 1000000)) := by
  refine ⟨⟨?_, ?_, ?_⟩, fun r => ⟨rfl, rfl, rfl⟩⟩ <;>
    simp [enrichRow, htd, htc, hp]

/-- A second concrete row agreeing with `rowW` on the three inputs of the
derived columns but differing elsewhere. -/
def rowV : Row :=
  { location := some "Japan", iso_code := some "JPN", date := some 9,
    new_cases := some 7 }

theorem claim_C4_derived_columns_pure_witness :
    ((enrichRow rowW).death_rate = (enrichRow rowV).death_rate ∧
     (enrichRow rowW).cases_per_million = (enrichRow rowV).cases_per_million ∧
     (enrichRow rowW).deaths_per_million = (enrichRow rowV).deaths_per_million) ∧
    (∀ r : Row,
      (enrichRow r).death_rate = divQ r.total_deaths r.total_cases ∧
      (enrichRow r).cases_per_million =
        (divQ r.total_cases r.population).map (fun q => q * 1000000) ∧
      (enrichRow r).deaths_per_million =
        (divQ r.total_deaths r.population).map (fun q => q * 1000000)) :=
  claim_C4_derived_columns_pure rowW rowV (by decide) (by decide) (by decide)

/-- C3: for each of the seven key counters and each country's series in
source row order, the fill steps (group-wise forward-fill then zero-fill)
produce: length preserved; positions whose every prior-or-equal source
cell is missing become zero; and any position is filled with the most
recent prior-or-equal non-missing source value. -/
theorem claim_C3_fill_policy (df : List Row) (c : KeyCol) (loc : String) (i : Nat) :
    (colSeries c loc (zfillFrame (ffillFrame df))).length =
      (colSeries c loc df).length ∧
    ((∀ j, j ≤ i → nth (colSeries c loc df) j = some none) →
      i < (colSeries c loc df).length →
      nth (colSeries c loc (zfillFrame (ffillFrame df))) i = some (some 0)) ∧
    (∀ j v, j ≤ i → i < (colSeries c loc df).length →
      nth (colSeries c loc df) j = some (some v) →
      (∀ k, j < k → k ≤ i → nth (colSeries c loc df) k = some none) →
      nth (colSeries c loc (zfillFrame (ffillFrame df))) i = some (some v)) := by
  have hser : colSeries c loc (zfillFrame (ffillFrame df)) =
      (ffill none (colSeries c loc df)).map (fun o => some (o.getD 0)) := by
    rw [zfillFrame_series, ffillFrame_series]
  have hnth : ∀ {i}, i < (colSeries c loc df).length →
      nth (colSeries c loc (zfillFrame (ffillFrame df))) i =
        some (some ((carried none ((colSeries c loc df).take (i + 1))).getD 0)) := by
    intro i hi
    rw [hser, nth_map, ffill_nth none hi]
    rfl
  refine ⟨?_, ?_, ?_⟩
  · rw [hser]
    simp [ffill_length]
  · intro hall hi
    rw [hnth hi]
    have hc : carried none ((colSeries c loc df).take (i + 1)) = none := by
      apply carried_all_none
      intro x hx
      obtain ⟨j, hj⟩ := nth_of_mem hx
      have hjlen := nth_lt_length hj
      have hjlt : j < i + 1 := by
        have := List.length_take_le (i + 1) (colSeries c loc df)
        omega
      rw [nth_take hjlt] at hj
      have := hall j (by omega)
      rw [this] at hj
      injection hj with hj
      exact hj.symm
    rw [hc]
    rfl
  · intro j v hji hi hj hmid
    rw [hnth hi]
    have hsplit : (colSeries c loc df).take (i + 1) =
        (colSeries c loc df).take (j + 1) ++
          (((colSeries c loc df).drop (j + 1)).take (i - j)) := by
      have : i + 1 = (j + 1) + (i - j) := by omega
      rw [this, List.take_add]
    have hfirst : carried none ((colSeries c loc df).take (j + 1)) = some v := by
      rw [take_succ_nth hj, carried_append, carried_singleton]
      rfl
    have hrest : carried (some v)
        (((colSeries c loc df).drop (j + 1)).take (i - j)) = some v := by
      apply carried_all_none
      intro x hx
      obtain ⟨m, hm⟩ := nth_of_mem hx
      have hmlen := nth_lt_length hm
      have hmlt : m < i - j := by
        have := List.length_take_le (i - j) ((colSeries c loc df).drop (j + 1))
        omega
      rw [nth_take hmlt, nth_drop] at hm
      have := hmid (j + 1 + m) (by omega) (by omega)
      rw [this] at hm
      injection hm with hm
      exact hm.symm
    rw [hsplit, carried_append, hfirst, hrest]
    rfl

/-- A three-row Kenya frame whose total_cases series is
[missing, 5, missing]: a leading gap and an interior gap. -/
def dfFill : List Row :=
  [{ location := some "Kenya", date := some 1 },
   { location := some "Kenya", date := some 2, total_cases := some 5 },
   { location := some "Kenya", date := some 3 }]

theorem claim_C3_fill_policy_witness :
    nth (colSeries KeyCol.tc "Kenya" (zfillFrame (ffillFrame dfFill))) 2 =
      some (some 5) :=
  (claim_C3_fill_policy dfFill KeyCol.tc "Kenya" 2).2.2 1 5 (by decide) (by decide)
    (by decide)
    (by
      intro k h1 h2
      have hk : k = 2 := by omega
      subst hk
      decide)

/-- The claim's reading of the snapshot: one row per location holding the
fields of the chronologically last row of that location. -/
def snapOfRow (l : String) (r : Row) : SnapRow :=
  { location := l, iso_code := r.iso_code, date := r.date,
    population := r.population, total_cases := r.total_cases,
    new_cases := r.new_cases, total_deaths := r.total_deaths,
    new_deaths := r.new_deaths, total_vaccinations := r.total_vaccinations,
    people_vaccinated := r.people_vaccinated,
    people_fully_vaccinated := r.people_fully_vaccinated,
    people_fully_vaccinated_per_hundred := r.people_fully_vaccinated_per_hundred,
    total_cases_per_million := r.total_cases_per_million,
    death_rate := r.death_rate, cases_per_million := r.cases_per_million,
    deaths_per_million := r.deaths_per_million }

/-- Literal transcription of the claim: the snapshot consists, per
location, of the chronologically last row of that location's series. -/
def lastRowSnapshot (df : List Row) : List SnapRow :=
  (sortedLocs df).map (fun l =>
    match ((sortByDate df).filter (fun r => r.location == some l)).getLast? with
    | some r => snapOfRow l r
    | none => { location := l })

/-- Two Kenya rows; the later row is missing
people_fully_vaccinated_per_hundred, so `groupby.last()` reaches back to
the earlier row for that column. -/
def dfSnap : List Row :=
  [{ location := some "Kenya", iso_code := some "KEN", date := some 1,
     people_fully_vaccinated_per_hundred := some 10 },
   { location := some "Kenya", iso_code := some "KEN", date := some 2 }]

/-- C5 counterexample: the snapshot computed by the code
(`sort_values('date').groupby('location').last()`) is not the
chronologically-last-row-per-location table: `last()` takes each column's
last non-null value, mixing rows when the last row has missing cells. -/
theorem claim_C5_counterexample : snapshot dfSnap ≠ lastRowSnapshot dfSnap := by
  decide

/-- C5 amended: the snapshot (both the bar charts' snapshot of the
filtered table and the map stage's snapshot of the full table are
computed by the same `snapshot` operation) has one row per present
location, and each column of that row is the last non-missing value of
that column over the location's rows sorted by date. -/
theorem claim_C5_amended (df : List Row) :
    (snapshot df).map (fun e => e.location) = sortedLocs df ∧
    (∀ (α : Type) (l : String) (f : Row → Option α),
      colLast df l f =
        lastSome (((sortByDate df).filter (fun r => r.location == some l)).map f)) ∧
    (∀ e ∈ snapshot df,
      e.people_fully_vaccinated_per_hundred =
        lastSome (((sortByDate df).filter (fun r => r.location == some e.location)).map
          (fun r => r.people_fully_vaccinated_per_hundred)) ∧
      e.total_cases_per_million =
        lastSome (((sortByDate df).filter (fun r => r.location == some e.location)).map
          (fun r => r.total_cases_per_million)) ∧
      e.death_rate =
        lastSome (((sortByDate df).filter (fun r => r.location == some e.location)).map
          (fun r => r.death_rate)) ∧
      e.iso_code =
        lastSome (((sortByDate df).filter (fun r => r.location == some e.location)).map
          (fun r => r.iso_code))) := by
  have hcol : ∀ (α : Type) (l : String) (f : Row → Option α),
      colLast df l f =
        lastSome (((sortByDate df).filter (fun r => r.location == some l)).map f) := by
    intro α l f
    exact carried_none_eq_lastSome _
  refine ⟨?_, hcol, ?_⟩
  · show ((sortedLocs df).map (mkSnap df)).map (fun e => e.location) = sortedLocs df
    rw [List.map_map]
    exact List.map_id _
  · intro e he
    obtain ⟨l, _, hl⟩ := List.mem_map.mp he
    have hloc : e.location = l := by rw [← hl]; rfl
    subst hl
    rw [hloc]
    exact ⟨hcol ℚ l _, hcol ℚ l _, hcol ℚ l _, hcol String l _⟩

theorem claim_C5_amended_witness :
    (mkSnap dfSnap "Kenya").people_fully_vaccinated_per_hundred =
      lastSome (((sortByDate dfSnap).filter
        (fun r => r.location == some (mkSnap dfSnap "Kenya").location)).map
          (fun r => r.people_fully_vaccinated_per_hundred)) ∧
    (mkSnap dfSnap "Kenya").total_cases_per_million =
      lastSome (((sortByDate dfSnap).filter
        (fun r => r.location == some (mkSnap dfSnap "Kenya").location)).map
          (fun r => r.total_cases_per_million)) ∧
    (mkSnap dfSnap "Kenya").death_rate =
      lastSome (((sortByDate dfSnap).filter
        (fun r => r.location == some (mkSnap dfSnap "Kenya").location)).map
          (fun r => r.death_rate)) ∧
    (mkSnap dfSnap "Kenya").iso_code =
      lastSome (((sortByDate dfSnap).filter
        (fun r => r.location == some (mkSnap dfSnap "Kenya").location)).map
          (fun r => r.iso_code)) :=
  (claim_C5_amended dfSnap).2.2 (mkSnap dfSnap "Kenya") (by decide)

/-- An allowlisted row whose date is missing in the source
(`pd.to_datetime` turns it into NaT, not an error). -/
def dfNoDate : List Row := [{ location := some "Kenya" }]

/-- C6 counterexample: the final `dropna(subset=['date', 'location'])` is
not a no-op on every input: a filtered row with a missing date survives
parsing and filtering but is removed by the drop. -/
theorem claim_C6_counterexample :
    dropnaDateLocation (preDropTable dfNoDate) ≠ preDropTable dfNoDate := by
  decide

/-- C6 amended: the final drop removes exactly the rows with a missing
date; the location half of the condition really is defensive, because the
allowlist filter guarantees every remaining row has a location.  The step
is a no-op only on inputs whose filtered rows all carry a date. -/
theorem claim_C6_amended (df : List Row) :
    dropnaDateLocation (preDropTable df) =
      (preDropTable df).filter (fun r => r.date.isSome) ∧
    ∀ r ∈ preDropTable df, r.location.isSome = true := by
  have hloc : ∀ r ∈ preDropTable df, r.location.isSome = true := by
    intro r hr
    obtain ⟨p, r₀, _, hallow, heq⟩ := mem_preDropTable hr
    obtain ⟨l, hl, _⟩ := isinAllowlist_location hallow
    have hsame := cleanSteps_sameNonKey p r₀
    rw [heq, hsame.1, hl]
    rfl
  refine ⟨?_, hloc⟩
  apply List.filter_congr
  intro r hr
  rw [hloc r hr, Bool.and_true]

theorem claim_C6_amended_witness : rowWClean.location.isSome = true :=
  (claim_C6_amended [rowW]).2 rowWClean (by decide)

/-- C7: a cleaned row whose (filled) total_cases is zero gets an
undefined (non-finite) death_rate — the division yields no value rather
than raising — and the death-rate bar panel still renders an entry for a
snapshot row whose death_rate is undefined. -/
theorem claim_C7_zero_total_cases :
    (∀ (df : List Row) (r : Row), r ∈ cleanPipeline df →
      r.total_cases = some 0 → r.death_rate = none) ∧
    (∀ (latest : List SnapRow) (e : SnapRow), e ∈ latest →
      e.death_rate = none → (e.location, (none : Cell)) ∈ deathRatePanel latest) := by
  constructor
  · intro df r h hz
    obtain ⟨p, r₀, _, _, heq, _⟩ := mem_cleanPipeline h
    have htc : (zfillRow (fillRowWith p r₀)).total_cases = some 0 := by
      rw [heq] at hz
      exact hz
    have hdr : r.death_rate =
        divQ (zfillRow (fillRowWith p r₀)).total_deaths
          (zfillRow (fillRowWith p r₀)).total_cases := by
      rw [heq]
      rfl
    rw [hdr, htc]
    cases (zfillRow (fillRowWith p r₀)).total_deaths with
    | none => rfl
    | some d => simp [divQ]
  · intro latest e he hdr
    have hmem : e ∈ sortDescBy (fun x => x.death_rate) latest :=
      (sortDescBy_perm (fun x => x.death_rate) latest).mem_iff.mpr he
    have hmap := List.mem_map_of_mem
      (fun x : SnapRow => (x.location, x.death_rate.map (fun q => q * 100))) hmem
    simp only [hdr, Option.map_none'] at hmap
    exact hmap

/-- A snapshot row with no defined death rate. -/
def snapZero : SnapRow := { location := "Kenya" }

theorem claim_C7_zero_total_cases_witness :
    rowWClean.death_rate = none ∧
    ("Kenya", (none : Cell)) ∈ deathRatePanel [snapZero] :=
  ⟨claim_C7_zero_total_cases.1 [rowW] rowWClean (by decide) (by decide),
   claim_C7_zero_total_cases.2 [snapZero] snapZero (by decide) (by decide)⟩

/-- Two snapshot rows ranked oppositely by death rate and by cases per
million. -/
def snapTwo : List SnapRow :=
  [{ location := "A", death_rate := some 2, cases_per_million := some 1,
     deaths_per_million := some 1, people_fully_vaccinated_per_hundred := some 1 },
   { location := "B", death_rate := some 1, cases_per_million := some 2,
     deaths_per_million := some 2, people_fully_vaccinated_per_hundred := some 2 }]

/-- C8: each bar panel (3, 4, 5, 7) re-sorts the latest-row-per-country
table by its own metric, exactly as chained in the code; each panel's
table is a permutation of the snapshot whose bars are in non-increasing
order of that panel's metric (defined heights first, descending, missing
heights last), and the country orderings can differ between panels. -/
theorem claim_C8_bar_panels_sorted (snap : List SnapRow) :
    (List.Perm (sortDescBy (fun e => e.death_rate) snap) snap ∧
      (sortDescBy (fun e => e.death_rate) snap).Pairwise
        (barGE (fun e => e.death_rate))) ∧
    (List.Perm (sortDescBy (fun e => e.cases_per_million)
        (sortDescBy (fun e => e.death_rate) snap)) snap ∧
      (sortDescBy (fun e => e.cases_per_million)
        (sortDescBy (fun e => e.death_rate) snap)).Pairwise
        (barGE (fun e => e.cases_per_million))) ∧
    (List.Perm (sortDescBy (fun e => e.deaths_per_million)
        (sortDescBy (fun e => e.cases_per_million)
          (sortDescBy (fun e => e.death_rate) snap))) snap ∧
      (sortDescBy (fun e => e.deaths_per_million)
        (sortDescBy (fun e => e.cases_per_million)
          (sortDescBy (fun e => e.death_rate) snap))).Pairwise
        (barGE (fun e => e.deaths_per_million))) ∧
    (List.Perm (sortDescBy (fun e => e.people_fully_vaccinated_per_hundred)
        (sortDescBy (fun e => e.deaths_per_million)
          (sortDescBy (fun e => e.cases_per_million)
            (sortDescBy (fun e => e.death_rate) snap)))) snap ∧
      (sortDescBy (fun e => e.people_fully_vaccinated_per_hundred)
        (sortDescBy (fun e => e.deaths_per_million)
          (sortDescBy (fun e => e.cases_per_million)
            (sortDescBy (fun e => e.death_rate) snap)))).Pairwise
        (barGE (fun e => e.people_fully_vaccinated_per_hundred))) ∧
    (sortDescBy (fun e => e.cases_per_million)
        (sortDescBy (fun e => e.death_rate) snapTwo)).map (fun e => e.location) ≠
      (sortDescBy (fun e => e.death_rate) snapTwo).map (fun e => e.location) := by
  have p3 := sortDescBy_perm (fun e : SnapRow => e.death_rate) snap
  have p4 := (sortDescBy_perm (fun e : SnapRow => e.cases_per_million) _).trans p3
  have p5 := (sortDescBy_perm (fun e : SnapRow => e.deaths_per_million) _).trans p4
  have p7 := (sortDescBy_perm
    (fun e : SnapRow => e.people_fully_vaccinated_per_hundred) _).trans p5
  exact ⟨⟨p3, sortDescBy_sorted _ _⟩, ⟨p4, sortDescBy_sorted _ _⟩,
    ⟨p5, sortDescBy_sorted _ _⟩, ⟨p7, sortDescBy_sorted _ _⟩, by decide⟩

/-- C9: cleaning fills only the seven key counters and derives only the
three ratio columns: every kept row agrees with a raw input row on all
other columns (location, ISO code, date, population,
people_fully_vaccinated_per_hundred, total_cases_per_million), and the
untouched columns can still be missing at rendering time. -/
theorem claim_C9_untouched_columns :
    (∀ (df : List Row) (r : Row), r ∈ cleanPipeline df →
      ∃ r₀, r₀ ∈ df ∧ sameNonKey r r₀) ∧
    (∃ (df : List Row) (r : Row), r ∈ cleanPipeline df ∧
      r.people_fully_vaccinated_per_hundred = none) := by
  constructor
  · intro df r h
    obtain ⟨p, r₀, hmem, _, _, hsame⟩ := mem_cleanPipeline h
    exact ⟨r₀, hmem, hsame⟩
  · exact ⟨[rowW], rowWClean, by decide, by decide⟩

theorem claim_C9_untouched_columns_witness :
    ∃ r₀, r₀ ∈ [rowW] ∧ sameNonKey rowWClean r₀ :=
  claim_C9_untouched_columns.1 [rowW] rowWClean (by decide)
